import Mathlib

/-
Verification development for the HC11 pulse generator (src/pulse.c).

The program drives an output-compare timer: a fixed cycle table of tick
durations, an interrupt handler that reprograms the OC4 compare register
by adding the duration at the table cursor to the previously programmed
value (16-bit wraparound), and a driver loop that spins on a wakeup flag
and emits heartbeat bytes on the serial line.

The embedding below is a direct shallow translation of the C source:
machine unsigned short arithmetic becomes Nat with explicit mod 2^16,
unsigned char arithmetic becomes Nat with explicit mod 2^8, the cursor
pointer into the static table becomes a Nat index, and the pointer
dereference becomes an Option-valued list lookup so that an out-of-bounds
access is visible as failure.
-/

namespace Pulse

/-- Wrap width of the HC11 free-running counter and of unsigned short. -/
def counterMod : Nat := 65536

/-- Wrap width of unsigned char. -/
def byteMod : Nat := 256

/-- C macro: `#define US_TO_CYCLE(N) ((N) * 2)` (2 ticks per microsecond). -/
def US_TO_CYCLE (n : Nat) : Nat := n * 2

/-- The static cycle table of `pulse.c`, entries given in microseconds
through the US_TO_CYCLE macro, exactly as in the source. -/
def cycle_table : List Nat :=
  [US_TO_CYCLE 500,
   US_TO_CYCLE 500,
   US_TO_CYCLE 500,
   US_TO_CYCLE 1000,
   US_TO_CYCLE 1000,
   US_TO_CYCLE 5000,
   US_TO_CYCLE 100,
   US_TO_CYCLE 500,
   US_TO_CYCLE 5000,
   US_TO_CYCLE 1000,
   US_TO_CYCLE 100,
   US_TO_CYCLE 100]

/-- C macro TABLE_SIZE applied to cycle_table. -/
def TABLE_SIZE : Nat := cycle_table.length

/-- Observable effects of the interrupt handler, in the order the C
statements perform them: clear the OC4 pending flag, read the table at
the cursor, write the compare register, advance the cursor, set the
wakeup flag. -/
inductive HwEvent where
  | ackOC4 : HwEvent
  | readTable : Nat → HwEvent
  | setCompare : Nat → HwEvent
  | advanceCursor : Nat → HwEvent
  | setWakeup : Nat → HwEvent
deriving DecidableEq, Repr

/-- Program state: the static table (never written after startup), the
cursor index that embeds the cycle_next pointer, the unsigned short
change_time, the last value written to the OC4 compare register, the
volatile wakeup byte, and the driver-loop locals c and i together with
the list of bytes sent on the serial line. -/
structure SysState where
  table : List Nat
  cycle_next : Nat
  change_time : Nat
  oc4 : Nat
  wakeup : Nat
  c : Nat
  i : Nat
  sent : List Nat
deriving DecidableEq, Repr

/-- The interrupt handler output_compare_interrupt of pulse.c.

The parameter counterNow is the value the free-running counter holds at
the moment the handler is serviced (it varies with interrupt latency);
the handler body never reads it, exactly as the C handler never reads
the counter register.  The body is the literal translation:
dt = table[cursor]; dt += change_time (unsigned short wrap);
set_output_compare_4(dt); change_time = dt; cursor++; wrap to 0 past the
last entry; wakeup = 1.  The table read returns none when the cursor is
out of bounds, where the C would dereference past the array. -/
def output_compare_interrupt (counterNow : Nat) (s : SysState) :
    Option (SysState × List HwEvent) :=
  match s.table[s.cycle_next]? with
  | none => none
  | some d =>
    let dt := (d + s.change_time) % counterMod
    let next0 := s.cycle_next + 1
    let next := if s.table.length ≤ next0 then 0 else next0
    some ({ s with cycle_next := next, change_time := dt, oc4 := dt, wakeup := 1 },
          [HwEvent.ackOC4, HwEvent.readTable s.cycle_next, HwEvent.setCompare dt,
           HwEvent.advanceCursor next, HwEvent.setWakeup 1])

/-- The one-time setup of main: cycle_next = cycle_table (index 0);
change_time = get_timer_counter() + 300 in unsigned short arithmetic;
set_output_compare_4(change_time); locals c = 0, i = 0, nothing sent.
counter0 is the value get_timer_counter() returned. -/
def main_setup (counter0 : Nat) : SysState :=
  let ct := (counter0 % counterMod + 300) % counterMod
  { table := cycle_table, cycle_next := 0, change_time := ct, oc4 := ct,
    wakeup := 0, c := 0, i := 0, sent := [] }

/-- k invocations of the interrupt handler starting from the state main
leaves after setup with initial counter read counter0.  The counter value
handed to each invocation is irrelevant (the handler ignores it); 0 is
passed. -/
def engineRun (counter0 : Nat) : Nat → Option SysState
  | 0 => some (main_setup counter0)
  | k + 1 => (engineRun counter0 k).bind
      (fun s => (output_compare_interrupt 0 s).map Prod.fst)

/-- A run of the handler from an arbitrary state under an explicit list of
counter values observed at each service time (one per interrupt, encoding
when each interrupt was actually serviced); returns the final state and
the sequence of compare values programmed. -/
def engineRunLat (s : SysState) : List Nat → Option (SysState × List Nat)
  | [] => some (s, [])
  | l :: ls =>
    match output_compare_interrupt l s with
    | none => none
    | some (s', _) =>
      (engineRunLat s' ls).map (fun p => (p.1, s'.oc4 :: p.2))

/-- Driver-loop step: wakeup = 0 at the top of the for body. -/
def driver_clear_wakeup (s : SysState) : SysState := { s with wakeup := 0 }

/-- Driver-loop spin: while (wakeup == 0) continue; the body is empty, so
spinning any number of times leaves the state unchanged; fuel n bounds the
number of checks modelled. -/
def driver_spin : Nat → SysState → SysState
  | 0, s => s
  | n + 1, s => if s.wakeup = 0 then driver_spin n s else s

/-- The four spinner bytes of the C string literal left-quote minus,
backslash, bar, slash right-quote indexed by (++i) & 3. -/
def spinner_string : List Nat := [45, 92, 124, 47]

/-- Driver-loop heartbeat: c++ (unsigned char); if c == 1 send backspace
(byte 8); else if c == 128, ++i (unsigned char) and send the spinner byte
at index i & 3.  For i < 256, i & 3 equals i % 4. -/
def driver_heartbeat (s : SysState) : SysState :=
  let c := (s.c + 1) % byteMod
  if c = 1 then { s with c := c, sent := s.sent ++ [8] }
  else if c = 128 then
    let i := (s.i + 1) % byteMod
    { s with c := c, i := i, sent := s.sent ++ [spinner_string.getD (i % 4) 0] }
  else { s with c := c }

/-- One iteration of the for body of main: clear the wakeup flag, wait
until the handler sets it again (the wait ends through exactly one handler
invocation, the assumption that each wait eventually ends), then run the
heartbeat code. -/
def driver_iter (s : SysState) : Option SysState :=
  let s1 := driver_clear_wakeup s
  match output_compare_interrupt 0 s1 with
  | none => none
  | some (s2, _) => some (driver_heartbeat (driver_spin 1 s2))

/-- The for loop of main, n iterations. -/
def driver_loop : Nat → SysState → Option SysState
  | 0, s => some s
  | n + 1, s => (driver_iter s).bind (driver_loop n)

/-- Whole program: setup with the initial counter read, 1000 loop
iterations, return 0 paired with the final state. -/
def main_run (counter0 : Nat) : Option (Nat × SysState) :=
  (driver_loop 1000 (main_setup counter0)).map (fun s => (0, s))

/-- Validation pass over the cycle table: true when every entry is at
least the given minimum tick threshold. -/
def table_min_ok (threshold : Nat) : Bool :=
  cycle_table.all (fun d => decide (threshold ≤ d))

/- ------------------------------------------------------------------ -/
/- Helper lemmas                                                      -/
/- ------------------------------------------------------------------ -/

theorem getElem?_of_lt {l : List Nat} {n : Nat} (h : n < l.length) :
    l[n]? = some (l.getD n 0) := by
  rw [List.getElem?_eq_getElem h, List.getD_eq_getElem?_getD,
    List.getElem?_eq_getElem h]
  rfl

/-- Evaluating the handler on any in-bounds state. -/
theorem output_compare_interrupt_step (d : Nat) (s : SysState)
    (h : s.cycle_next < s.table.length) :
    output_compare_interrupt d s =
      some ({ s with
              cycle_next :=
                if s.table.length ≤ s.cycle_next + 1 then 0 else s.cycle_next + 1,
              change_time := (s.table.getD s.cycle_next 0 + s.change_time) % counterMod,
              oc4 := (s.table.getD s.cycle_next 0 + s.change_time) % counterMod,
              wakeup := 1 },
            [HwEvent.ackOC4, HwEvent.readTable s.cycle_next,
             HwEvent.setCompare ((s.table.getD s.cycle_next 0 + s.change_time) % counterMod),
             HwEvent.advanceCursor
               (if s.table.length ≤ s.cycle_next + 1 then 0 else s.cycle_next + 1),
             HwEvent.setWakeup 1]) := by
  unfold output_compare_interrupt
  rw [getElem?_of_lt h]

/-- The handler body never mentions its counter argument. -/
theorem handler_ignores_counter (c1 c2 : Nat) (s : SysState) :
    output_compare_interrupt c1 s = output_compare_interrupt c2 s := rfl

theorem succ_mod_table (k : Nat) :
    (k + 1) % TABLE_SIZE =
      if TABLE_SIZE ≤ k % TABLE_SIZE + 1 then 0 else k % TABLE_SIZE + 1 := by
  have h12 : TABLE_SIZE = 12 := rfl
  rw [h12]
  rcases Nat.lt_or_ge (k % 12 + 1) 12 with h | h
  · rw [if_neg (by omega)]
    omega
  · rw [if_pos h]
    omega

/-- Invariant of the engine run: every prefix of invocations succeeds, the
table is never changed, and the cursor after k invocations sits at
k mod TABLE_SIZE. -/
theorem engineRun_inv (counter0 : Nat) :
    ∀ k, ∃ s, engineRun counter0 k = some s ∧ s.table = cycle_table ∧
      s.cycle_next = k % TABLE_SIZE := by
  intro k
  induction k with
  | zero => exact ⟨main_setup counter0, rfl, rfl, rfl⟩
  | succ k ih =>
    obtain ⟨s, hs, htab, hcur⟩ := ih
    have hlen : s.table.length = TABLE_SIZE := by rw [htab]; rfl
    have hlt : s.cycle_next < s.table.length := by
      rw [hlen, hcur]
      exact Nat.mod_lt _ (by decide)
    refine ⟨{ s with
        cycle_next :=
          if s.table.length ≤ s.cycle_next + 1 then 0 else s.cycle_next + 1,
        change_time := (s.table.getD s.cycle_next 0 + s.change_time) % counterMod,
        oc4 := (s.table.getD s.cycle_next 0 + s.change_time) % counterMod,
        wakeup := 1 }, ?_, htab, ?_⟩
    · simp only [engineRun]
      rw [hs, Option.some_bind, output_compare_interrupt_step 0 s hlt]
      rfl
    · simp only []
      rw [hlen, hcur, succ_mod_table]

/-- Per-iteration effect of the heartbeat code on the serial output. -/
theorem driver_heartbeat_sent (s : SysState) :
    (driver_heartbeat s).sent.length =
      s.sent.length +
        (if (s.c + 1) % byteMod = 1 ∨ (s.c + 1) % byteMod = 128 then 1 else 0) := by
  unfold driver_heartbeat
  by_cases h1 : (s.c + 1) % byteMod = 1
  · simp [h1]
  · by_cases h2 : (s.c + 1) % byteMod = 128
    · simp [h1, h2]
    · simp [h1, h2]

/-- A run of the handler is insensitive to the counter values observed at
service time: equal-length latency schedules give identical results. -/
theorem engineRunLat_latency_free :
    ∀ (l1 l2 : List Nat) (s : SysState), l1.length = l2.length →
      engineRunLat s l1 = engineRunLat s l2
  | [], [], _, _ => rfl
  | [], _ :: _, _, h => by simp at h
  | _ :: _, [], _, h => by simp at h
  | a :: l1, b :: l2, s, h => by
    have hlen : l1.length = l2.length := by simpa using h
    simp only [engineRunLat, handler_ignores_counter a b s]
    cases hoc : output_compare_interrupt b s with
    | none => rfl
    | some p =>
      obtain ⟨s', tr⟩ := p
      show Option.map (fun p => (p.1, s'.oc4 :: p.2)) (engineRunLat s' l1) =
        Option.map (fun p => (p.1, s'.oc4 :: p.2)) (engineRunLat s' l2)
      rw [engineRunLat_latency_free l1 l2 s' hlen]

/-- The heartbeat code touches only c, i and the serial output. -/
theorem driver_heartbeat_frame (s : SysState) :
    (driver_heartbeat s).change_time = s.change_time ∧
    (driver_heartbeat s).cycle_next = s.cycle_next ∧
    (driver_heartbeat s).table = s.table := by
  unfold driver_heartbeat
  by_cases h1 : (s.c + 1) % byteMod = 1
  · simp [h1]
  · by_cases h2 : (s.c + 1) % byteMod = 128 <;> simp [h1, h2]

/- ------------------------------------------------------------------ -/
/- Claims                                                             -/
/- ------------------------------------------------------------------ -/

/-- C1: for every k, the compare value programmed at interrupt k+1 equals
the value programmed at interrupt k plus cycle_table at position k mod
TABLE_SIZE, computed modulo 2^16, and that value is exactly what is
written to the OC4 compare register, so cumulative drift is zero. -/
theorem pulse_c1 (counter0 k : Nat) :
    ∃ s s', engineRun counter0 k = some s ∧ engineRun counter0 (k + 1) = some s' ∧
      s'.change_time = (s.change_time + cycle_table.getD (k % TABLE_SIZE) 0) % counterMod ∧
      s'.oc4 = s'.change_time := by
  obtain ⟨s, hs, htab, hcur⟩ := engineRun_inv counter0 k
  have hlen : s.table.length = TABLE_SIZE := by rw [htab]; rfl
  have hlt : s.cycle_next < s.table.length := by
    rw [hlen, hcur]
    exact Nat.mod_lt _ (by decide)
  refine ⟨s, { s with
      cycle_next :=
        if s.table.length ≤ s.cycle_next + 1 then 0 else s.cycle_next + 1,
      change_time := (s.table.getD s.cycle_next 0 + s.change_time) % counterMod,
      oc4 := (s.table.getD s.cycle_next 0 + s.change_time) % counterMod,
      wakeup := 1 }, hs, ?_, ?_, rfl⟩
  · simp only [engineRun]
    rw [hs, Option.some_bind, output_compare_interrupt_step 0 s hlt]
    rfl
  · show (s.table.getD s.cycle_next 0 + s.change_time) % counterMod = _
    rw [htab, hcur, Nat.add_comm]

/-- C2: the cursor starts at the first table entry and after M interrupts
sits at position M mod TABLE_SIZE, for every M. -/
theorem pulse_c2 (counter0 M : Nat) :
    (main_setup counter0).cycle_next = 0 ∧
    ∃ s, engineRun counter0 M = some s ∧ s.cycle_next = M % TABLE_SIZE := by
  refine ⟨rfl, ?_⟩
  obtain ⟨s, hs, _, hcur⟩ := engineRun_inv counter0 M
  exact ⟨s, hs, hcur⟩

/-- C3: the handler is a function of the previous state only; it never
reads the current free-running counter, so two runs from the same state
with different interrupt-service latency schedules program identical
sequences of compare values. -/
theorem pulse_c3 (s : SysState) :
    (∀ c1 c2, output_compare_interrupt c1 s = output_compare_interrupt c2 s) ∧
    (∀ l1 l2 : List Nat, l1.length = l2.length →
      engineRunLat s l1 = engineRunLat s l2) :=
  ⟨fun c1 c2 => handler_ignores_counter c1 c2 s,
   fun l1 l2 h => engineRunLat_latency_free l1 l2 s h⟩

theorem pulse_c3_witness :
    output_compare_interrupt 17 (main_setup 0) =
      output_compare_interrupt 54321 (main_setup 0) ∧
    ([1, 2, 3] : List Nat).length = ([60000, 0, 65535] : List Nat).length ∧
    engineRunLat (main_setup 0) [1, 2, 3] =
      engineRunLat (main_setup 0) [60000, 0, 65535] :=
  ⟨(pulse_c3 (main_setup 0)).1 17 54321, by decide,
   (pulse_c3 (main_setup 0)).2 [1, 2, 3] [60000, 0, 65535] (by decide)⟩

/-- C4: with the fixed microsecond table and the exact 2 ticks per
microsecond conversion, the stored tick durations are exactly
[1000, 1000, 1000, 2000, 2000, 10000, 200, 1000, 10000, 2000, 200, 200];
after 12 interrupts the cursor is back at index 0 and the 13th delta
equals the 1st (1000 ticks). -/
theorem pulse_c4 :
    cycle_table =
      List.map US_TO_CYCLE
        [500, 500, 500, 1000, 1000, 5000, 100, 500, 5000, 1000, 100, 100] ∧
    cycle_table =
      [1000, 1000, 1000, 2000, 2000, 10000, 200, 1000, 10000, 2000, 200, 200] ∧
    (engineRun 0 12).map SysState.cycle_next = some 0 ∧
    cycle_table.getD (12 % TABLE_SIZE) 0 = cycle_table.getD (0 % TABLE_SIZE) 0 ∧
    cycle_table.getD (0 % TABLE_SIZE) 0 = 1000 :=
  ⟨rfl, rfl, by decide, rfl, rfl⟩

/-- C5: on every invocation from a well-formed state, the handler performs
its effects in the strict source order: acknowledge the OC4 pending flag
first, then read the duration at the cursor, then program the new compare
value, then advance the cursor, and set the wakeup flag to 1 last - so the
trace contains exactly one setWakeup event, after the setCompare event. -/
theorem pulse_c5 (d : Nat) (s : SysState) (htab : s.table = cycle_table)
    (hcur : s.cycle_next < TABLE_SIZE) :
    output_compare_interrupt d s =
      some ({ s with
              cycle_next :=
                if s.table.length ≤ s.cycle_next + 1 then 0 else s.cycle_next + 1,
              change_time := (s.table.getD s.cycle_next 0 + s.change_time) % counterMod,
              oc4 := (s.table.getD s.cycle_next 0 + s.change_time) % counterMod,
              wakeup := 1 },
            [HwEvent.ackOC4, HwEvent.readTable s.cycle_next,
             HwEvent.setCompare ((s.table.getD s.cycle_next 0 + s.change_time) % counterMod),
             HwEvent.advanceCursor
               (if s.table.length ≤ s.cycle_next + 1 then 0 else s.cycle_next + 1),
             HwEvent.setWakeup 1]) := by
  apply output_compare_interrupt_step
  rw [htab]
  exact hcur

theorem pulse_c5_witness :
    (main_setup 0).table = cycle_table ∧ (main_setup 0).cycle_next < TABLE_SIZE ∧
    output_compare_interrupt 0 (main_setup 0) =
      some ({ main_setup 0 with
              cycle_next := 1, change_time := 1300, oc4 := 1300, wakeup := 1 },
            [HwEvent.ackOC4, HwEvent.readTable 0, HwEvent.setCompare 1300,
             HwEvent.advanceCursor 1, HwEvent.setWakeup 1]) :=
  ⟨rfl, by decide, by rw [pulse_c5 0 (main_setup 0) rfl (by decide)]; decide⟩

/-- C6: the first programmed compare target equals the counter value read
at startup plus the fixed 300-tick margin (in the counter's modulo-2^16
domain; exactly, whenever no wrap occurs), and that same value is written
to the compare register. -/
theorem pulse_c6 (counter0 : Nat) :
    (main_setup counter0).change_time = (counter0 + 300) % counterMod ∧
    (main_setup counter0).oc4 = (main_setup counter0).change_time ∧
    (counter0 + 300 < counterMod →
      (main_setup counter0).change_time = counter0 + 300) := by
  have hct : (main_setup counter0).change_time = (counter0 + 300) % counterMod := by
    show (counter0 % counterMod + 300) % counterMod = (counter0 + 300) % counterMod
    rw [Nat.mod_add_mod]
  refine ⟨hct, rfl, fun h => ?_⟩
  rw [hct]
  exact Nat.mod_eq_of_lt h

theorem pulse_c6_witness :
    (main_setup 5000).change_time = (5000 + 300) % counterMod ∧
    (main_setup 5000).oc4 = (main_setup 5000).change_time ∧
    5000 + 300 < counterMod ∧ (main_setup 5000).change_time = 5000 + 300 :=
  ⟨(pulse_c6 5000).1, (pulse_c6 5000).2.1, by decide, (pulse_c6 5000).2.2 (by decide)⟩

/-- C7: at every handler invocation the cursor points at one of the
TABLE_SIZE entries, the read through the cursor is in bounds, and the
invocation itself succeeds, re-establishing the invariant for the next
one; the cursor is initialized to the first entry by main. -/
theorem pulse_c7 (counter0 k : Nat) :
    ∃ s, engineRun counter0 k = some s ∧ s.cycle_next < cycle_table.length ∧
      (s.table[s.cycle_next]?).isSome = true ∧
      (output_compare_interrupt 0 s).isSome = true := by
  obtain ⟨s, hs, htab, hcur⟩ := engineRun_inv counter0 k
  have hlen : s.table.length = TABLE_SIZE := by rw [htab]; rfl
  have hlt : s.cycle_next < s.table.length := by
    rw [hlen, hcur]
    exact Nat.mod_lt _ (by decide)
  refine ⟨s, hs, ?_, ?_, ?_⟩
  · rw [← htab]
    exact hlt
  · rw [getElem?_of_lt hlt]
    rfl
  · rw [output_compare_interrupt_step 0 s hlt]
    rfl

/-- C8: a validation pass over every entry of the cycle table flags no
value below the documented minimum threshold of 100 cycles. -/
theorem pulse_c8 :
    table_min_ok 100 = true ∧
    cycle_table.all (fun d => decide (100 ≤ d)) = true := by decide

/-- C9: only the interrupt handler mutates change_time and the table
cursor: clearing the wakeup flag, spinning on it, and the heartbeat all
leave change_time, cycle_next and the table unchanged, and the handler
itself never changes the table. -/
theorem pulse_c9 (s : SysState) :
    (driver_clear_wakeup s).change_time = s.change_time ∧
    (driver_clear_wakeup s).cycle_next = s.cycle_next ∧
    (driver_clear_wakeup s).table = s.table ∧
    (∀ n, driver_spin n s = s) ∧
    (driver_heartbeat s).change_time = s.change_time ∧
    (driver_heartbeat s).cycle_next = s.cycle_next ∧
    (driver_heartbeat s).table = s.table ∧
    (∀ d, (output_compare_interrupt d s).map (fun p => p.1.table) =
          (output_compare_interrupt d s).map (fun _ => s.table)) := by
  obtain ⟨h1, h2, h3⟩ := driver_heartbeat_frame s
  refine ⟨rfl, rfl, rfl, ?_, h1, h2, h3, ?_⟩
  · intro n
    induction n with
    | zero => rfl
    | succ n ih =>
      unfold driver_spin
      split
      · exact ih
      · rfl
  · intro d
    unfold output_compare_interrupt
    cases s.table[s.cycle_next]? with
    | none => rfl
    | some d0 => rfl

set_option maxRecDepth 100000 in
/-- C10: after setup the driver loop runs exactly 1000 iterations and main
returns 0; the per-iteration byte counter c ends at 1000 mod 256, exactly
8 bytes are emitted (twice per 256 wakeups: at c = 1 and c = 128), and the
heartbeat step emits one byte exactly when the incremented counter hits
1 or 128 and nothing otherwise. -/
theorem pulse_c10 :
    (main_run 0).map Prod.fst = some 0 ∧
    (main_run 0).map (fun p => p.2.c) = some (1000 % byteMod) ∧
    (main_run 0).map (fun p => p.2.sent.length) = some 8 ∧
    (main_run 0).map (fun p => p.2.sent) = some [8, 92, 8, 124, 8, 47, 8, 45] ∧
    (∀ s : SysState, (driver_heartbeat s).sent.length =
      s.sent.length +
        (if (s.c + 1) % byteMod = 1 ∨ (s.c + 1) % byteMod = 128 then 1 else 0)) :=
  ⟨by decide, by decide, by decide, by decide, driver_heartbeat_sent⟩

end Pulse
